import Mathlib

/-!
Shallow embedding of the EFI zboot extractor (`src/unzboot.c`) and its
gunzip front end, together with theorems checking the specification's
claims about header validation, bounds checking, decompression dispatch
and architecture sniffing.

Buffers are modelled as `List Nat` of byte values; machine integers are
`Nat`/`Int` with explicit reductions modulo `2 ^ 32` / `2 ^ 64` where the
C code's fixed-width arithmetic matters.
-/

namespace Unzboot

/-- Failure kinds of `gunzip`, one per distinct error path in the source:
`truncated` is the `toosmall` label ("gunzip out of data in header"),
`malformedHeader` is the "Bad gzipped data" path, and `decompressionError`
is a failing `inflateInit2`/`inflate` call. -/
inductive GunzipError where
  | truncated
  | malformedHeader
  | decompressionError
  deriving DecidableEq, Repr

deriving instance DecidableEq for Except

/-- The body of the `while (i < srclen && src[i++] != 0)` loop of `gunzip`,
walking the suffix of the source that starts at the loop counter `i`. -/
def skipStringAux : List Nat → Nat → Nat
  | [], i => i
  | b :: rest, i => if b = 0 then i + 1 else skipStringAux rest (i + 1)

/-- The `while (i < srclen && src[i++] != 0)` loop of `gunzip`: advance `i`
until a NUL byte has been consumed or the end of the buffer is reached. -/
def skipString (src : List Nat) (i : Nat) : Nat :=
  skipStringAux (src.drop i) i

/-- The header-skipping prefix of `gunzip` (`src/unzboot.c` lines 138-169):
returns the offset at which the raw DEFLATE stream begins, or the error
the source reports. Flag bits: `EXTRA_FIELD = 4`, `ORIG_NAME = 8`,
`COMMENT = 0x10`, `HEAD_CRC = 2`, `RESERVED = 0xe0`, `DEFLATED = 8`. -/
def skipHeader (src : List Nat) : Except GunzipError Nat :=
  if src.length < 4 then .error .truncated
  else
    let flags := src.getD 3 0
    if src.getD 2 0 ≠ 8 ∨ flags &&& 0xe0 ≠ 0 then .error .malformedHeader
    else if flags &&& 4 ≠ 0 ∧ src.length < 12 then .error .truncated
    else
      let i0 := if flags &&& 4 ≠ 0 then 12 + src.getD 10 0 + src.getD 11 0 * 256 else 10
      let i1 := if flags &&& 8 ≠ 0 then skipString src i0 else i0
      let i2 := if flags &&& 0x10 ≠ 0 then skipString src i1 else i1
      let i3 := if flags &&& 2 ≠ 0 then i2 + 2 else i2
      if i3 ≥ src.length then .error .truncated else .ok i3

/-- The external raw-DEFLATE inflate collaborator, abstracted: `decode`
yields the full decompressed byte stream of a raw DEFLATE input, or `none`
when the stream is corrupt or incomplete. -/
structure InflateOracle where
  decode : List Nat → Option (List Nat)

/-- Modelled from the spec: the single-shot `inflate(&s, Z_FINISH)` call of
the external DEFLATE backend, which "reports insufficient output space as a
non-success status distinct from a clean end-of-stream": the call succeeds
exactly when the full decoded stream exists and fits in the destination
capacity. -/
def inflateCall (o : InflateOracle) (dstlen : Nat) (src : List Nat) :
    Option (List Nat) :=
  match o.decode src with
  | none => none
  | some out => if out.length ≤ dstlen then some out else none

/-- `gunzip(dst, dstlen, src, srclen)`: skip the gzip member header, then
hand the remaining bytes to the inflate backend. Success carries the
decompressed bytes (the C function returns their count `dstbytes`). -/
def gunzip (o : InflateOracle) (dstlen : Nat) (src : List Nat) :
    Except GunzipError (List Nat) :=
  match skipHeader src with
  | .error e => .error e
  | .ok i =>
    match inflateCall o dstlen (src.drop i) with
    | none => .error .decompressionError
    | some out => .ok out

/-- The valid gzip stream of `"Hello Gzip Test\n"` used by the repository's
tests (`valid_gzip_data` in `src/test_unzboot.c`). -/
def validGzipData : List Nat :=
  [0x1f, 0x8b, 0x08, 0x00, 0x00, 0x00, 0x00, 0x00, 0x00, 0x03,
   0xf3, 0x48, 0xcd, 0xc9, 0xc9, 0x57, 0x70, 0xaf, 0xca, 0x2c,
   0x50, 0x08, 0x49, 0x2d, 0x2e, 0xe1, 0x02, 0x00, 0x47, 0x0e,
   0x85, 0x2f, 0x10, 0x00, 0x00, 0x00]

/-- The bytes of `"Hello Gzip Test\n"`, the decompressed form of
`validGzipData`. -/
def helloBytes : List Nat :=
  [72, 101, 108, 108, 111, 32, 71, 122, 105, 112, 32, 84, 101, 115, 116, 10]

/-- An inflate backend that knows the one stream the tests use. -/
def helloOracle : InflateOracle :=
  ⟨fun src => if src = validGzipData.drop 10 then some helloBytes else none⟩

/-- An inflate backend that rejects every stream (e.g. every stream it is
given is incomplete). -/
def rejectOracle : InflateOracle := ⟨fun _ => none⟩

/-- The external single-shot zstd collaborator (`ZSTD_decompress`): given a
destination capacity and a source, yields the decompressed bytes or `none`
for a decompressor-reported error status (a negative return value). -/
structure ZstdOracle where
  decompress : Nat → List Nat → Option (List Nat)

/-- A zstd backend that rejects every stream. -/
def zstdReject : ZstdOracle := ⟨fun _ _ => none⟩

/-- The state the orchestrator threads through `unpack_efi_zboot_image`:
the owned byte buffer `*buffer` and its recorded length `*size`. -/
structure UnpackSt where
  buffer : List Nat
  size : Nat
  deriving DecidableEq, Repr

/-- The distinct exit paths of `unpack_efi_zboot_image`, one constructor per
return site of the source. `unsupportedCompression` carries the (truncated,
NUL-delimited) compression-type string shown in the diagnostic. -/
inductive UnpackOutcome where
  | notAContainer
  | corruptHeader
  | decompressionError
  | unsupportedCompression (ctype : List Nat)
  | unpacked (bytes : Nat)
  deriving DecidableEq, Repr

/-- The `ssize_t` value each exit path of `unpack_efi_zboot_image` returns. -/
def retval : UnpackOutcome → Int
  | .notAContainer => 0
  | .corruptHeader => -1
  | .decompressionError => -1
  | .unsupportedCompression _ => -1
  | .unpacked n => (n : Int)

/-- The `n` bytes of `buf` starting at offset `off` (a `memcmp`/slice view). -/
def readBytes (buf : List Nat) (off n : Nat) : List Nat := (buf.drop off).take n

/-- `EFI_PE_MSDOS_MAGIC`, the bytes of `"MZ"`. -/
def msdosMagic : List Nat := [77, 90]

/-- The bytes of `"zimg"`. -/
def zimgMagic : List Nat := [122, 105, 109, 103]

/-- `EFI_PE_LINUX_MAGIC`, the bytes `"\xcd\x23\x82\x81"`. -/
def linuxMagic : List Nat := [0xcd, 0x23, 0x82, 0x81]

/-- The unsigned little-endian 32-bit value at offset `off` of `buf`. -/
def leU32 (buf : List Nat) (off : Nat) : Nat :=
  buf.getD off 0 + buf.getD (off + 1) 0 * 256 +
    buf.getD (off + 2) 0 * 65536 + buf.getD (off + 3) 0 * 16777216

/-- `ldl_le_p`: the little-endian 32-bit value at offset `off` reinterpreted
as a signed `int32_t` (two's complement). -/
def ldl_le_p (buf : List Nat) (off : Nat) : Int :=
  if leU32 buf off < 2 ^ 31 then (leU32 buf off : Int)
  else (leU32 buf off : Int) - 2 ^ 32

/-- The C cast `(size_t)x`: `x` reduced into `[0, 2^64)` (two's complement). -/
def sizeT (x : Int) : Nat := (x % 2 ^ 64).toNat

/-- `strcmp(buf + off, lit) == 0` for a NUL-free literal `lit`: the bytes of
`lit` appear at `off` and are followed by a NUL terminator. -/
def strcmpEq (buf : List Nat) (off : Nat) (lit : List Nat) : Bool :=
  readBytes buf off lit.length == lit && buf.getD (off + lit.length) 0 == 0

/-- The bytes of `"gzip"`. -/
def gzipLit : List Nat := [103, 122, 105, 112]

/-- The bytes of `"zstd"`. -/
def zstdLit : List Nat := [122, 115, 116, 100]

/-- The bytes of `"zstd22"`. -/
def zstd22Lit : List Nat := [122, 115, 116, 100, 50, 50]

/-- `LOAD_IMAGE_MAX_GUNZIP_BYTES` = 256 MiB, the fixed destination
capacity. -/
def maxGunzipBytes : Nat := 256 * 2 ^ 20

/-- The compression-type string as printed in the `UnsupportedCompression`
diagnostic: `"%.*s"` with precision `sizeof(compression_type) - 1 = 31`
over the field at offset 24, stopping at a NUL. -/
def truncCType (buf : List Nat) : List Nat :=
  (readBytes buf 24 31).takeWhile (fun b => b != 0)

/-- The payload slice `(*buffer + ploff, plsize)` that
`unpack_efi_zboot_image` hands to the selected decompressor. -/
def payloadSlice (st : UnpackSt) : List Nat :=
  readBytes st.buffer (sizeT (ldl_le_p st.buffer 8)) (sizeT (ldl_le_p st.buffer 12))

/-- `unpack_efi_zboot_image(buffer, size)` (`src/unzboot.c` lines 206-269),
parametrized by the two external decompression backends. The header is the
64-byte `struct linux_efi_zboot_header`: `msdos_magic` at offset 0, `zimg`
at 4, `payload_offset` at 8, `payload_size` at 12, `compression_type[32]`
at 24, `linux_magic` at 56. Returns the taken exit path together with the
final `(*buffer, *size)` state. -/
def unpack_efi_zboot_image (gz : InflateOracle) (zs : ZstdOracle)
    (st : UnpackSt) : UnpackOutcome × UnpackSt :=
  if st.size < 64 then (.notAContainer, st)
  else if ¬(readBytes st.buffer 0 2 = msdosMagic ∧
            readBytes st.buffer 4 4 = zimgMagic ∧
            readBytes st.buffer 56 4 = linuxMagic) then (.notAContainer, st)
  else
    let ploff := ldl_le_p st.buffer 8
    let plsize := ldl_le_p st.buffer 12
    if ploff < 0 ∨ plsize < 0 ∨ (sizeT ploff + sizeT plsize) % 2 ^ 64 > st.size
    then (.corruptHeader, st)
    else
      let payload := payloadSlice st
      if strcmpEq st.buffer 24 gzipLit then
        match gunzip gz maxGunzipBytes payload with
        | .error _ => (.decompressionError, st)
        | .ok out => (.unpacked out.length, ⟨out, out.length⟩)
      else if strcmpEq st.buffer 24 zstd22Lit || strcmpEq st.buffer 24 zstdLit
      then
        match zs.decompress maxGunzipBytes payload with
        | none => (.decompressionError, st)
        | some out => (.unpacked out.length, ⟨out, out.length⟩)
      else (.unsupportedCompression (truncCType st.buffer), st)

/-- The architecture classification outcomes of `main`. -/
inductive ArchTag where
  | arm64
  | riscv
  | unrecognized
  deriving DecidableEq, Repr

/-- The bytes of `"ARM\x64"`. -/
def armMagic : List Nat := [65, 82, 77, 100]

/-- The bytes of `"RSC\x05"`. -/
def rscMagic : List Nat := [82, 83, 67, 5]

/-- The architecture sniffer of `main` (`src/unzboot.c` lines 298-318):
`size > ARM64_MAGIC_OFFSET + 4` (that is, `size > 60`) guards a 4-byte
`memcmp` at offset 56 against each known signature. -/
def sniffArch (buf : List Nat) : ArchTag :=
  if buf.length > 60 ∧ readBytes buf 56 4 = armMagic then .arm64
  else if buf.length > 60 ∧ readBytes buf 56 4 = rscMagic then .riscv
  else .unrecognized

/-! ## Spec-side description of the gzip header skip

A second formulation of the header-skip offset computation, written from
the specification's words rather than the loop structure of the source, to
be compared with `skipHeader`. -/

/-- The index of the first NUL byte of a list, if any. -/
def findZeroIdx : List Nat → Option Nat
  | [] => none
  | b :: rest => if b = 0 then some 0 else (findZeroIdx rest).map (· + 1)

/-- Per the spec: "advances past each NUL-terminated string, stopping at
end-of-buffer without erroring if no terminator is found" — the position
just past the first NUL at or after `i`, or the end of the buffer. -/
def skipStringSpec (src : List Nat) (i : Nat) : Nat :=
  match findZeroIdx (src.drop i) with
  | some j => i + j + 1
  | none => src.length

/-- The header-skip offset computation as the specification describes it:
the offset defaults to 10; the extra-field flag requires at least 12 bytes
and makes the offset `12 + extra_len` with `extra_len` little-endian at
bytes 10-11; the name and comment flags each advance past a NUL-terminated
string; the header-CRC flag advances by 2; an offset at or past the total
length is `Truncated`. (The method/reserved-flag validation is the caller's
premise and not repeated here.) -/
def skipHeaderSpec (src : List Nat) : Except GunzipError Nat :=
  let flags := src.getD 3 0
  if flags &&& 4 ≠ 0 ∧ src.length < 12 then .error .truncated
  else
    let off0 := if flags &&& 4 ≠ 0 then 12 + (src.getD 10 0 + src.getD 11 0 * 256) else 10
    let off1 := if flags &&& 8 ≠ 0 then skipStringSpec src off0 else off0
    let off2 := if flags &&& 0x10 ≠ 0 then skipStringSpec src off1 else off1
    let off3 := if flags &&& 2 ≠ 0 then off2 + 2 else off2
    if off3 ≥ src.length then .error .truncated else .ok off3

/-! ## Concrete inputs -/

/-- A 60-byte buffer carrying `"ARM\x64"` at offset 56 — exactly long
enough to contain the architecture signature. -/
def shortArm : List Nat := List.replicate 56 0 ++ armMagic

/-- A 61-byte buffer carrying `"ARM\x64"` at offset 56. -/
def arm61 : List Nat := List.replicate 56 0 ++ armMagic ++ [0]

/-- A 120-byte zboot container with valid magics, compression type
`"gzip"`, `payload_offset = 100` and `payload_size = 50`: the payload end
exceeds the buffer length (scenario 5 of the spec). -/
def corruptContainer : List Nat :=
  msdosMagic ++ [0, 0] ++ zimgMagic ++ [100, 0, 0, 0] ++ [50, 0, 0, 0] ++
    List.replicate 8 0 ++ gzipLit ++ List.replicate 28 0 ++ linuxMagic ++
    [0, 0, 0, 0] ++ List.replicate 56 0

/-- A 120-byte zboot container with valid magics and bounds and the
unsupported compression type `"bzip2"` (scenario 6 of the spec). -/
def bzipContainer : List Nat :=
  msdosMagic ++ [0, 0] ++ zimgMagic ++ [64, 0, 0, 0] ++ [10, 0, 0, 0] ++
    List.replicate 8 0 ++ [98, 122, 105, 112, 50] ++ List.replicate 27 0 ++
    linuxMagic ++ [0, 0, 0, 0] ++ List.replicate 56 0

/-- A gzip member header exercising every optional field: flags
`EXTRA_FIELD | ORIG_NAME | COMMENT | HEAD_CRC`, a 2-byte extra field, a
1-character name, a 1-character comment, a header CRC, then two payload
bytes; the raw stream starts at offset 20. -/
def gzHdrSample : List Nat :=
  [31, 139, 8, 30, 0, 0, 0, 0, 0, 3, 2, 0, 77, 88, 102, 0, 99, 0, 1, 2, 7, 8]

/-! ## Helper lemmas -/

theorem skipStringAux_eq_find (l : List Nat) (i : Nat) :
    skipStringAux l i =
      match findZeroIdx l with
      | some j => i + j + 1
      | none => i + l.length := by
  induction l generalizing i with
  | nil => simp [skipStringAux, findZeroIdx]
  | cons b rest ih =>
    by_cases hb : b = 0
    · simp [skipStringAux, findZeroIdx, hb]
    · rw [skipStringAux, if_neg hb, ih]
      cases h : findZeroIdx rest with
      | none =>
        simp only [findZeroIdx, if_neg hb, h, Option.map_none', List.length_cons]
        show i + 1 + rest.length = i + (rest.length + 1)
        omega
      | some j =>
        simp only [findZeroIdx, if_neg hb, h, Option.map_some']
        show i + 1 + j + 1 = i + (j + 1) + 1
        omega

theorem skipStringAux_ge (l : List Nat) (i : Nat) : i ≤ skipStringAux l i := by
  induction l generalizing i with
  | nil => simp [skipStringAux]
  | cons b rest ih =>
    rw [skipStringAux]
    split
    · omega
    · exact Nat.le_trans (Nat.le_succ i) (ih (i + 1))

theorem findZeroIdx_lt (l : List Nat) (j : Nat) (h : findZeroIdx l = some j) :
    j < l.length := by
  induction l generalizing j with
  | nil => simp [findZeroIdx] at h
  | cons b rest ih =>
    rw [findZeroIdx] at h
    split at h
    · cases h; simp
    · cases hr : findZeroIdx rest with
      | none => rw [hr] at h; simp at h
      | some k =>
        rw [hr] at h
        simp at h
        have := ih k hr
        simp [List.length_cons]
        omega

theorem skipString_eq_spec (src : List Nat) (i : Nat) (h : i ≤ src.length) :
    skipString src i = skipStringSpec src i := by
  rw [skipString, skipStringSpec, skipStringAux_eq_find]
  cases hf : findZeroIdx (src.drop i) with
  | none =>
    show i + (src.drop i).length = src.length
    rw [List.length_drop]
    omega
  | some j => rfl

theorem skipStringSpec_le (src : List Nat) (i : Nat) :
    skipStringSpec src i ≤ src.length := by
  rw [skipStringSpec]
  cases hf : findZeroIdx (src.drop i) with
  | none => simp
  | some j =>
    have hj := findZeroIdx_lt _ _ hf
    rw [List.length_drop] at hj
    show i + j + 1 ≤ src.length
    omega

theorem skipStringSpec_of_ge (src : List Nat) (i : Nat) (h : src.length ≤ i) :
    skipStringSpec src i = src.length := by
  rw [skipStringSpec, List.drop_eq_nil_of_le h]
  rfl

theorem skipString_of_ge (src : List Nat) (i : Nat) (h : src.length ≤ i) :
    skipString src i = i := by
  rw [skipString, List.drop_eq_nil_of_le h]
  rfl

theorem skipString_le (src : List Nat) (i : Nat) (h : i ≤ src.length) :
    skipString src i ≤ src.length := by
  rw [skipString_eq_spec src i h]
  exact skipStringSpec_le src i

theorem skipString_ge (src : List Nat) (i : Nat) : i ≤ skipString src i :=
  skipStringAux_ge (src.drop i) i

theorem skipString_cons2 (u v : Nat) (l : List Nat) (i : Nat) (h : 2 ≤ i) :
    skipString (u :: v :: l) i = skipStringAux (l.drop (i - 2)) i := by
  obtain ⟨k, rfl⟩ : ∃ k, i = k + 2 := ⟨i - 2, by omega⟩
  show skipStringAux ((u :: v :: l).drop (k + 2)) (k + 2) =
    skipStringAux (l.drop (k + 2 - 2)) (k + 2)
  have h1 : (u :: v :: l).drop (k + 2) = l.drop k := rfl
  have h2 : k + 2 - 2 = k := by omega
  rw [h1, h2]

theorem getD_lt_256 (buf : List Nat) (hb : ∀ b ∈ buf, b < 256) (off : Nat) :
    buf.getD off 0 < 256 := by
  induction buf generalizing off with
  | nil =>
    have : ([] : List Nat).getD off 0 = 0 := by
      rw [List.getD, List.get?_nil]
      rfl
    omega
  | cons x rest ih =>
    cases off with
    | zero =>
      have : (x :: rest).getD 0 0 = x := rfl
      have hx := hb x (by simp)
      omega
    | succ n =>
      rw [List.getD_cons_succ]
      exact ih (fun c hc => hb c (by simp [hc])) n

theorem leU32_lt (buf : List Nat) (hb : ∀ b ∈ buf, b < 256) (off : Nat) :
    leU32 buf off < 2 ^ 32 := by
  have h0 := getD_lt_256 buf hb off
  have h1 := getD_lt_256 buf hb (off + 1)
  have h2 := getD_lt_256 buf hb (off + 2)
  have h3 := getD_lt_256 buf hb (off + 3)
  rw [leU32]
  omega

theorem ldl_le_p_bounds (buf : List Nat) (hb : ∀ b ∈ buf, b < 256)
    (off : Nat) : -(2 ^ 31) ≤ ldl_le_p buf off ∧ ldl_le_p buf off < 2 ^ 31 := by
  have hlt := leU32_lt buf hb off
  rw [ldl_le_p]
  split
  · constructor <;> omega
  · constructor <;> omega

theorem strcmpEq_true_iff (buf : List Nat) (off : Nat) (lit : List Nat) :
    strcmpEq buf off lit = true ↔
      (readBytes buf off lit.length = lit ∧ buf.getD (off + lit.length) 0 = 0) := by
  rw [strcmpEq]
  simp [Bool.and_eq_true]

theorem readBytes_four_of_six (buf : List Nat) (off : Nat) :
    readBytes buf off 4 = (readBytes buf off 6).take 4 := by
  rw [readBytes, readBytes, List.take_take]
  norm_num

theorem unpack_cases (gz : InflateOracle) (zs : ZstdOracle) (st : UnpackSt) :
    unpack_efi_zboot_image gz zs st = (.notAContainer, st) ∨
    unpack_efi_zboot_image gz zs st = (.corruptHeader, st) ∨
    unpack_efi_zboot_image gz zs st = (.decompressionError, st) ∨
    unpack_efi_zboot_image gz zs st =
      (.unsupportedCompression (truncCType st.buffer), st) ∨
    ∃ out, unpack_efi_zboot_image gz zs st =
        (.unpacked out.length, ⟨out, out.length⟩) ∧
      (gunzip gz maxGunzipBytes (payloadSlice st) = .ok out ∨
       zs.decompress maxGunzipBytes (payloadSlice st) = some out) := by
  simp only [unpack_efi_zboot_image]
  by_cases h1 : st.size < 64
  · rw [if_pos h1]
    exact Or.inl rfl
  rw [if_neg h1]
  by_cases hm : readBytes st.buffer 0 2 = msdosMagic ∧
    readBytes st.buffer 4 4 = zimgMagic ∧ readBytes st.buffer 56 4 = linuxMagic
  · rw [if_neg (not_not_intro hm)]
    by_cases hb : ldl_le_p st.buffer 8 < 0 ∨ ldl_le_p st.buffer 12 < 0 ∨
      (sizeT (ldl_le_p st.buffer 8) + sizeT (ldl_le_p st.buffer 12)) % 2 ^ 64 >
        st.size
    · rw [if_pos hb]
      exact Or.inr (Or.inl rfl)
    rw [if_neg hb]
    by_cases hgz : strcmpEq st.buffer 24 gzipLit = true
    · rw [if_pos hgz]
      cases hg : gunzip gz maxGunzipBytes (payloadSlice st) with
      | error e => simp [hg]
      | ok out =>
        simp only [hg]
        exact Or.inr (Or.inr (Or.inr (Or.inr ⟨out, rfl, Or.inl rfl⟩)))
    rw [if_neg hgz]
    by_cases hzs : (strcmpEq st.buffer 24 zstd22Lit ||
      strcmpEq st.buffer 24 zstdLit) = true
    · rw [if_pos hzs]
      cases hz : zs.decompress maxGunzipBytes (payloadSlice st) with
      | none => simp [hz]
      | some out =>
        simp only [hz]
        exact Or.inr (Or.inr (Or.inr (Or.inr ⟨out, rfl, Or.inr rfl⟩)))
    rw [if_neg hzs]
    exact Or.inr (Or.inr (Or.inr (Or.inl rfl)))
  · rw [if_pos hm]
    exact Or.inl rfl

/-- Relates a loop-computed offset to a spec-computed offset: they are
equal, or both have run off the end of the buffer. -/
def offEquiv (src : List Nat) (i j : Nat) : Prop :=
  i = j ∨ (src.length ≤ i ∧ src.length ≤ j)

theorem offEquiv_string (src : List Nat) (i j : Nat) (h : offEquiv src i j) :
    offEquiv src (skipString src i) (skipStringSpec src j) := by
  rcases h with rfl | ⟨hi, hj⟩
  · by_cases hle : i ≤ src.length
    · exact Or.inl (skipString_eq_spec src i hle)
    · refine Or.inr ⟨?_, ?_⟩
      · rw [skipString_of_ge src i (by omega)]
        omega
      · rw [skipStringSpec_of_ge src i (by omega)]
  · refine Or.inr ⟨?_, ?_⟩
    · rw [skipString_of_ge src i hi]
      exact hi
    · rw [skipStringSpec_of_ge src j hj]

theorem offEquiv_ite (src : List Nat) (c : Prop) [Decidable c] (i j : Nat)
    (h : offEquiv src i j) :
    offEquiv src (if c then skipString src i else i)
      (if c then skipStringSpec src j else j) := by
  by_cases hc : c
  · rw [if_pos hc, if_pos hc]
    exact offEquiv_string src i j h
  · rw [if_neg hc, if_neg hc]
    exact h

theorem offEquiv_add2 (src : List Nat) (c : Prop) [Decidable c] (i j : Nat)
    (h : offEquiv src i j) :
    offEquiv src (if c then i + 2 else i) (if c then j + 2 else j) := by
  rcases h with rfl | ⟨hi, hj⟩
  · exact Or.inl rfl
  · by_cases hc : c
    · rw [if_pos hc, if_pos hc]
      exact Or.inr ⟨by omega, by omega⟩
    · rw [if_neg hc, if_neg hc]
      exact Or.inr ⟨hi, hj⟩

theorem offEquiv_final (src : List Nat) (i j : Nat) (h : offEquiv src i j) :
    (if i ≥ src.length then (.error .truncated : Except GunzipError Nat)
      else .ok i) =
    (if j ≥ src.length then .error .truncated else .ok j) := by
  rcases h with rfl | ⟨hi, hj⟩
  · rfl
  · rw [if_pos (by omega), if_pos (by omega)]

/-! ## Claim theorems -/

/-- C4: the gzip header skipper fails with `Truncated` on fewer than 4
bytes, fails with `MalformedHeader` when the method byte is not 8
(DEFLATE) or a reserved flag bit (mask `0xe0`) is set, and in particular
`gunzip` on the 4-byte input `{1, 2, 3, 4}` fails with `MalformedHeader`. -/
theorem gunzip_header_validation :
    (∀ src : List Nat, src.length < 4 → skipHeader src = .error .truncated) ∧
    (∀ src : List Nat, 4 ≤ src.length →
      (src.getD 2 0 ≠ 8 ∨ src.getD 3 0 &&& 0xe0 ≠ 0) →
      skipHeader src = .error .malformedHeader) ∧
    (∀ (o : InflateOracle) (d : Nat),
      gunzip o d [1, 2, 3, 4] = .error .malformedHeader) := by
  refine ⟨fun src h => ?_, fun src h4 hbad => ?_, fun o d => rfl⟩
  · rw [skipHeader, if_pos h]
  · rw [skipHeader, if_neg (by omega)]
    simp only [if_pos hbad]

/-- C4 witness: concrete instances of each failure mode. -/
theorem gunzip_header_validation_witness :
    skipHeader [31, 139] = .error .truncated ∧
    skipHeader [1, 2, 3, 4] = .error .malformedHeader ∧
    gunzip rejectOracle 1024 [1, 2, 3, 4] = .error .malformedHeader :=
  ⟨gunzip_header_validation.1 [31, 139] (by decide),
   gunzip_header_validation.2.1 [1, 2, 3, 4] (by decide) (by decide),
   gunzip_header_validation.2.2 rejectOracle 1024⟩

/-- C2 counterexample: a buffer of length exactly 60 contains the 4
signature bytes `"ARM\x64"` at offset 56, yet the sniffer classifies it as
unrecognized, because the source requires `size > 60`, not `size ≥ 60`. -/
theorem sniffArch_len60_counterexample :
    shortArm.length = 60 ∧ readBytes shortArm 56 4 = armMagic ∧
    sniffArch shortArm = .unrecognized := by decide

/-- C2 (amended): for buffers of length at least 61 (`size > 60`) the
sniffer classifies by the 4 bytes at offset 56 — `"ARM\x64"` gives ARM64,
`"RSC\x05"` gives RISC-V, anything else is unrecognized — and every buffer
of length at most 60 is unrecognized. -/
theorem sniffArch_classifies (buf : List Nat) :
    (61 ≤ buf.length →
      (readBytes buf 56 4 = armMagic → sniffArch buf = .arm64) ∧
      (readBytes buf 56 4 = rscMagic → sniffArch buf = .riscv) ∧
      (readBytes buf 56 4 ≠ armMagic → readBytes buf 56 4 ≠ rscMagic →
        sniffArch buf = .unrecognized)) ∧
    (buf.length ≤ 60 → sniffArch buf = .unrecognized) := by
  constructor
  · intro hlen
    refine ⟨fun ha => ?_, fun hr => ?_, fun ha hr => ?_⟩
    · rw [sniffArch, if_pos ⟨by omega, ha⟩]
    · have hna : readBytes buf 56 4 ≠ armMagic := by
        rw [hr]; decide
      rw [sniffArch, if_neg (by tauto), if_pos ⟨by omega, hr⟩]
    · rw [sniffArch, if_neg (by tauto), if_neg (by tauto)]
  · intro hlen
    rw [sniffArch, if_neg (by omega), if_neg (by omega)]

/-- C2 witness: a 61-byte buffer with the ARM64 signature is classified
ARM64; the 60-byte buffer with the signature is unrecognized. -/
theorem sniffArch_classifies_witness :
    sniffArch arm61 = .arm64 ∧ sniffArch shortArm = .unrecognized :=
  ⟨((sniffArch_classifies arm61).1 (by decide)).1 (by decide),
   (sniffArch_classifies shortArm).2 (by decide)⟩

/-- C8: an input shorter than the 64-byte `struct linux_efi_zboot_header`,
and an input whose MS-DOS magic, `"zimg"` tag or Linux architecture magic
does not match, each make the validator return `NotAContainer` with return
value 0 — a success, never an error. -/
theorem unpack_notAContainer (gz : InflateOracle) (zs : ZstdOracle)
    (st : UnpackSt) (hWf : st.size = st.buffer.length) :
    (st.buffer.length < 64 →
      unpack_efi_zboot_image gz zs st = (.notAContainer, st)) ∧
    (¬(readBytes st.buffer 0 2 = msdosMagic ∧
       readBytes st.buffer 4 4 = zimgMagic ∧
       readBytes st.buffer 56 4 = linuxMagic) →
      unpack_efi_zboot_image gz zs st = (.notAContainer, st)) ∧
    retval .notAContainer = 0 := by
  refine ⟨fun hshort => ?_, fun hmagic => ?_, rfl⟩
  · rw [unpack_efi_zboot_image, if_pos (by omega)]
  · rw [unpack_efi_zboot_image]
    by_cases hsz : st.size < 64
    · rw [if_pos hsz]
    · rw [if_neg hsz, if_pos hmagic]

/-- C8 witness: a 3-byte input and a 64-byte input with wrong magics. -/
theorem unpack_notAContainer_witness :
    unpack_efi_zboot_image rejectOracle zstdReject ⟨[1, 2, 3], 3⟩ =
      (.notAContainer, ⟨[1, 2, 3], 3⟩) ∧
    unpack_efi_zboot_image rejectOracle zstdReject
        ⟨List.replicate 64 7, 64⟩ =
      (.notAContainer, ⟨List.replicate 64 7, 64⟩) :=
  ⟨(unpack_notAContainer rejectOracle zstdReject ⟨[1, 2, 3], 3⟩
      (by decide)).1 (by decide),
   (unpack_notAContainer rejectOracle zstdReject ⟨List.replicate 64 7, 64⟩
      (by decide)).2.1 (by decide)⟩

/-- C5: whenever the true decompressed output of the raw stream behind the
gzip header is larger than the destination capacity, `gunzip` fails with
`DecompressionError`; and a successful `gunzip` always returns the complete
decoded stream, which fits in the capacity — never a truncated prefix. -/
theorem gunzip_dst_too_small (o : InflateOracle) (dstlen : Nat)
    (src : List Nat) :
    (∀ (i : Nat) (out : List Nat), skipHeader src = .ok i →
      o.decode (src.drop i) = some out → dstlen < out.length →
      gunzip o dstlen src = .error .decompressionError) ∧
    (∀ out : List Nat, gunzip o dstlen src = .ok out →
      ∃ i, skipHeader src = .ok i ∧ o.decode (src.drop i) = some out ∧
        out.length ≤ dstlen) := by
  constructor
  · intro i out hsk hdec hlt
    simp only [gunzip, hsk, inflateCall, hdec]
    rw [if_neg (by omega)]
  · intro out hok
    cases hsk : skipHeader src with
    | error e =>
      simp only [gunzip, hsk] at hok
      exact Except.noConfusion hok
    | ok i =>
      simp only [gunzip, hsk, inflateCall] at hok
      cases hdec : o.decode (src.drop i) with
      | none =>
        simp only [hdec] at hok
        exact Except.noConfusion hok
      | some out2 =>
        simp only [hdec] at hok
        by_cases hle : out2.length ≤ dstlen
        · rw [if_pos hle] at hok
          simp only [Except.ok.injEq] at hok
          subst hok
          exact ⟨i, rfl, hdec, hle⟩
        · rw [if_neg hle] at hok
          exact Except.noConfusion hok

/-- C5 witness: the test stream of `"Hello Gzip Test\n"` (16 decompressed
bytes) with destination capacity 5 fails with `DecompressionError`. -/
theorem gunzip_dst_too_small_witness :
    gunzip helloOracle 5 validGzipData = .error .decompressionError :=
  (gunzip_dst_too_small helloOracle 5 validGzipData).1 10 helloBytes
    (by decide) (by decide) (by decide)

/-- C6 counterexample: on the first 15 bytes of the valid gzip stream the
header skip succeeds at offset 10, so the `Truncated` ("out of data in
header") path is not taken; the failure comes from the inflate call and its
kind is `DecompressionError`, refuting the claim that it is `Truncated`. -/
theorem gunzip_truncated_kind_counterexample :
    skipHeader (validGzipData.take 15) = .ok 10 ∧
    gunzip rejectOracle 1024 (validGzipData.take 15) =
      .error .decompressionError := by decide

/-- C6 (amended): running the gzip path on only the first 15 bytes of the
valid gzip stream never fails with `Truncated` (the header skip succeeds at
offset 10, whatever the inflate backend does), and when the backend rejects
the incomplete raw stream the failure kind is `DecompressionError`. -/
theorem gunzip_truncated_data_fails (o : InflateOracle) :
    gunzip o 1024 (validGzipData.take 15) ≠ .error .truncated ∧
    (o.decode ((validGzipData.take 15).drop 10) = none →
      gunzip o 1024 (validGzipData.take 15) = .error .decompressionError) := by
  have hsk : skipHeader (validGzipData.take 15) = .ok 10 := by decide
  constructor
  · intro hcontra
    simp only [gunzip, hsk, inflateCall] at hcontra
    cases hdec : o.decode ((validGzipData.take 15).drop 10) with
    | none => simp only [hdec] at hcontra; simp at hcontra
    | some out =>
      simp only [hdec] at hcontra
      by_cases hle : out.length ≤ 1024
      · rw [if_pos hle] at hcontra; simp at hcontra
      · rw [if_neg hle] at hcontra; simp at hcontra
  · intro hdec
    simp only [gunzip, hsk, inflateCall, hdec]

/-- C6 witness: with a backend that rejects the incomplete stream, the
failure kind is `DecompressionError`. -/
theorem gunzip_truncated_data_fails_witness :
    gunzip rejectOracle 1024 (validGzipData.take 15) =
      .error .decompressionError :=
  (gunzip_truncated_data_fails rejectOracle).2 rfl

/-- C9: `(*buffer, *size)` is changed at most once per call — on the
`NotAContainer` outcome and on every `-1` (failure) outcome the state is
untouched, and on the successful outcome the buffer is replaced by the
output of the selected decompressor, with `*size` equal to its length,
which is also the returned value. -/
theorem unpack_frame (gz : InflateOracle) (zs : ZstdOracle) (st : UnpackSt) :
    ((unpack_efi_zboot_image gz zs st).1 = .notAContainer →
      (unpack_efi_zboot_image gz zs st).2 = st) ∧
    (retval (unpack_efi_zboot_image gz zs st).1 = -1 →
      (unpack_efi_zboot_image gz zs st).2 = st) ∧
    (∀ n, (unpack_efi_zboot_image gz zs st).1 = .unpacked n →
      retval (unpack_efi_zboot_image gz zs st).1 = (n : Int) ∧
      (unpack_efi_zboot_image gz zs st).2.size = n ∧
      (unpack_efi_zboot_image gz zs st).2.buffer.length = n ∧
      ∃ out, out.length = n ∧ (unpack_efi_zboot_image gz zs st).2 = ⟨out, n⟩ ∧
        (gunzip gz maxGunzipBytes (payloadSlice st) = .ok out ∨
         zs.decompress maxGunzipBytes (payloadSlice st) = some out)) := by
  rcases unpack_cases gz zs st with h | h | h | h | ⟨out, h, hsel⟩
  · rw [h]
    exact ⟨fun _ => rfl, by simp [retval], by simp⟩
  · rw [h]
    exact ⟨by simp, fun _ => rfl, by simp⟩
  · rw [h]
    exact ⟨by simp, fun _ => rfl, by simp⟩
  · rw [h]
    exact ⟨by simp, fun _ => rfl, by simp⟩
  · rw [h]
    refine ⟨by simp, ?_, ?_⟩
    · intro hc
      simp only [retval] at hc
      omega
    · intro n hn
      simp only [UnpackOutcome.unpacked.injEq] at hn
      subst hn
      exact ⟨rfl, rfl, rfl, ⟨out, rfl, rfl, hsel⟩⟩

/-- C9 witness: concrete instances of the unchanged-state conclusions. -/
theorem unpack_frame_witness :
    (unpack_efi_zboot_image rejectOracle zstdReject ⟨[9, 9], 2⟩).2 =
      ⟨[9, 9], 2⟩ ∧
    (unpack_efi_zboot_image rejectOracle zstdReject
        ⟨corruptContainer, 120⟩).2 = ⟨corruptContainer, 120⟩ :=
  ⟨(unpack_frame rejectOracle zstdReject ⟨[9, 9], 2⟩).1 (by decide),
   (unpack_frame rejectOracle zstdReject ⟨corruptContainer, 120⟩).2.1
     (by decide)⟩

/-- C1: for a magic-matching container of at least header size, the
validator fails with `CorruptHeader` exactly when the signed
`payload_offset` or `payload_size` is negative or their sum exceeds the
buffer length (first conjunct pair); the condition is equivalent to the
spec's overflow-avoiding form `¬(payload_offset ≤ size ∧ payload_size ≤
size - payload_offset)` (third conjunct); the `size_t` addition the source
performs never wraps (fourth conjunct); and in the failing case the result
is `(CorruptHeader, st)` for every decompression backend, so no
decompression is attempted. -/
theorem validator_corrupt_header (st : UnpackSt)
    (hWf : st.size = st.buffer.length)
    (hBytes : ∀ b ∈ st.buffer, b < 256) (hLen : 64 ≤ st.size)
    (hMagic : readBytes st.buffer 0 2 = msdosMagic ∧
      readBytes st.buffer 4 4 = zimgMagic ∧
      readBytes st.buffer 56 4 = linuxMagic) :
    ((ldl_le_p st.buffer 8 < 0 ∨ ldl_le_p st.buffer 12 < 0 ∨
        (ldl_le_p st.buffer 8).toNat + (ldl_le_p st.buffer 12).toNat >
          st.size) →
      ∀ (gz : InflateOracle) (zs : ZstdOracle),
        unpack_efi_zboot_image gz zs st = (.corruptHeader, st)) ∧
    (¬(ldl_le_p st.buffer 8 < 0 ∨ ldl_le_p st.buffer 12 < 0 ∨
        (ldl_le_p st.buffer 8).toNat + (ldl_le_p st.buffer 12).toNat >
          st.size) →
      ∀ (gz : InflateOracle) (zs : ZstdOracle),
        (unpack_efi_zboot_image gz zs st).1 ≠ .corruptHeader) ∧
    ((ldl_le_p st.buffer 8 < 0 ∨ ldl_le_p st.buffer 12 < 0 ∨
        (ldl_le_p st.buffer 8).toNat + (ldl_le_p st.buffer 12).toNat >
          st.size) ↔
      ¬(0 ≤ ldl_le_p st.buffer 8 ∧ 0 ≤ ldl_le_p st.buffer 12 ∧
        (ldl_le_p st.buffer 8).toNat ≤ st.size ∧
        (ldl_le_p st.buffer 12).toNat ≤
          st.size - (ldl_le_p st.buffer 8).toNat)) ∧
    (0 ≤ ldl_le_p st.buffer 8 → 0 ≤ ldl_le_p st.buffer 12 →
      (sizeT (ldl_le_p st.buffer 8) + sizeT (ldl_le_p st.buffer 12)) %
          2 ^ 64 =
        (ldl_le_p st.buffer 8).toNat + (ldl_le_p st.buffer 12).toNat) := by
  obtain ⟨ha1, ha2⟩ := ldl_le_p_bounds st.buffer hBytes 8
  obtain ⟨hb1, hb2⟩ := ldl_le_p_bounds st.buffer hBytes 12
  have hguard : (ldl_le_p st.buffer 8 < 0 ∨ ldl_le_p st.buffer 12 < 0 ∨
      (sizeT (ldl_le_p st.buffer 8) + sizeT (ldl_le_p st.buffer 12)) %
        2 ^ 64 > st.size) ↔
      (ldl_le_p st.buffer 8 < 0 ∨ ldl_le_p st.buffer 12 < 0 ∨
       (ldl_le_p st.buffer 8).toNat + (ldl_le_p st.buffer 12).toNat >
         st.size) := by
    unfold sizeT
    omega
  refine ⟨?_, ?_, by omega, ?_⟩
  · intro hcond gz zs
    simp only [unpack_efi_zboot_image]
    rw [if_neg (by omega), if_neg (not_not_intro hMagic),
      if_pos (hguard.mpr hcond)]
  · intro hncond gz zs
    have hng : ¬(ldl_le_p st.buffer 8 < 0 ∨ ldl_le_p st.buffer 12 < 0 ∨
        (sizeT (ldl_le_p st.buffer 8) + sizeT (ldl_le_p st.buffer 12)) %
          2 ^ 64 > st.size) := fun hg => hncond (hguard.mp hg)
    simp only [unpack_efi_zboot_image]
    rw [if_neg (by omega), if_neg (not_not_intro hMagic), if_neg hng]
    by_cases hgz : strcmpEq st.buffer 24 gzipLit = true
    · rw [if_pos hgz]
      cases hgu : gunzip gz maxGunzipBytes (payloadSlice st) <;> simp [hgu]
    · rw [if_neg hgz]
      by_cases hzs : (strcmpEq st.buffer 24 zstd22Lit ||
        strcmpEq st.buffer 24 zstdLit) = true
      · rw [if_pos hzs]
        cases hzd : zs.decompress maxGunzipBytes (payloadSlice st) <;>
          simp [hzd]
      · rw [if_neg hzs]
        simp
  · intro h1 h2
    unfold sizeT
    omega

/-- C1 witness: the container with `payload_offset = 100`,
`payload_size = 50` and buffer length 120 is rejected as `CorruptHeader`
and nothing is decompressed. -/
theorem validator_corrupt_header_witness :
    unpack_efi_zboot_image rejectOracle zstdReject ⟨corruptContainer, 120⟩ =
      (.corruptHeader, ⟨corruptContainer, 120⟩) :=
  (validator_corrupt_header ⟨corruptContainer, 120⟩ (by decide) (by decide)
      (by decide) (by decide)).1 (by decide) rejectOracle zstdReject

/-- A compression-type field equal to `"zstd"` or `"zstd22"` cannot also
equal `"gzip"`. -/
theorem zstd_not_gzip (buf : List Nat)
    (hz : strcmpEq buf 24 zstdLit = true ∨ strcmpEq buf 24 zstd22Lit = true) :
    strcmpEq buf 24 gzipLit = false := by
  rw [Bool.eq_false_iff]
  intro hg
  rw [strcmpEq_true_iff] at hg
  have hg4 : readBytes buf 24 4 = gzipLit := hg.1
  rcases hz with h | h
  · rw [strcmpEq_true_iff] at h
    have h4 : readBytes buf 24 4 = zstdLit := h.1
    rw [hg4] at h4
    exact absurd h4 (by decide)
  · rw [strcmpEq_true_iff] at h
    have h6 : readBytes buf 24 6 = zstd22Lit := h.1
    have h4 : readBytes buf 24 4 = zstdLit := by
      rw [readBytes_four_of_six, h6]
      decide
    rw [hg4] at h4
    exact absurd h4 (by decide)

/-- C7: on a validated container the dispatcher selects by exact
NUL-terminated string equality of the compression type: `"gzip"` runs the
gzip skipper plus inflate adapter, `"zstd"` or `"zstd22"` runs the external
zstd single-shot decompressor at the fixed 256 MiB capacity with an error
status becoming `DecompressionError`, and any other string fails with
`UnsupportedCompression` carrying the truncated type string. -/
theorem dispatcher_selects (gz : InflateOracle) (zs : ZstdOracle)
    (st : UnpackSt) (hLen : ¬st.size < 64)
    (hMagic : readBytes st.buffer 0 2 = msdosMagic ∧
      readBytes st.buffer 4 4 = zimgMagic ∧
      readBytes st.buffer 56 4 = linuxMagic)
    (hBounds : ¬(ldl_le_p st.buffer 8 < 0 ∨ ldl_le_p st.buffer 12 < 0 ∨
      (sizeT (ldl_le_p st.buffer 8) + sizeT (ldl_le_p st.buffer 12)) %
        2 ^ 64 > st.size)) :
    (strcmpEq st.buffer 24 gzipLit = true →
      unpack_efi_zboot_image gz zs st =
        match gunzip gz maxGunzipBytes (payloadSlice st) with
        | .error _ => (.decompressionError, st)
        | .ok out => (.unpacked out.length, ⟨out, out.length⟩)) ∧
    ((strcmpEq st.buffer 24 zstdLit = true ∨
        strcmpEq st.buffer 24 zstd22Lit = true) →
      unpack_efi_zboot_image gz zs st =
        match zs.decompress maxGunzipBytes (payloadSlice st) with
        | none => (.decompressionError, st)
        | some out => (.unpacked out.length, ⟨out, out.length⟩)) ∧
    (strcmpEq st.buffer 24 gzipLit = false →
      strcmpEq st.buffer 24 zstdLit = false →
      strcmpEq st.buffer 24 zstd22Lit = false →
      unpack_efi_zboot_image gz zs st =
        (.unsupportedCompression (truncCType st.buffer), st)) := by
  refine ⟨fun hgz => ?_, fun hz => ?_, fun h1 h2 h3 => ?_⟩
  · simp only [unpack_efi_zboot_image]
    rw [if_neg hLen, if_neg (not_not_intro hMagic), if_neg hBounds,
      if_pos hgz]
  · have hgf := zstd_not_gzip st.buffer hz
    simp only [unpack_efi_zboot_image]
    rw [if_neg hLen, if_neg (not_not_intro hMagic), if_neg hBounds,
      if_neg (by simp [hgf]), if_pos (by rcases hz with h | h <;> simp [h])]
  · simp only [unpack_efi_zboot_image]
    rw [if_neg hLen, if_neg (not_not_intro hMagic), if_neg hBounds,
      if_neg (by simp [h1]), if_neg (by simp [h2, h3])]

/-- C7 witness: a validated container whose compression type is `"bzip2"`
fails with `UnsupportedCompression` and the diagnostic carries the type
string. -/
theorem dispatcher_selects_witness :
    unpack_efi_zboot_image rejectOracle zstdReject ⟨bzipContainer, 120⟩ =
      (.unsupportedCompression [98, 122, 105, 112, 50],
        ⟨bzipContainer, 120⟩) := by
  have h := (dispatcher_selects rejectOracle zstdReject ⟨bzipContainer, 120⟩
    (by decide) (by decide) (by decide)).2.2 (by decide) (by decide)
    (by decide)
  rw [h]
  decide

/-- C3: on inputs of length at least 4 that pass the method/reserved-flag
validation, `skipHeader` computes exactly the offset the specification
describes: default 10; with the extra-field flag, at least 12 bytes are
required and the offset becomes `12 + extra_len` (`extra_len` little-endian
at bytes 10-11); the name and comment flags each skip a NUL-terminated
string, stopping at end-of-buffer without erroring; the header-CRC flag
adds 2; and an offset at or past the total length is `Truncated`. -/
theorem skipHeader_follows_spec (src : List Nat) (h4 : 4 ≤ src.length)
    (hm : src.getD 2 0 = 8) (hf : src.getD 3 0 &&& 0xe0 = 0) :
    skipHeader src = skipHeaderSpec src := by
  simp only [skipHeader, skipHeaderSpec]
  rw [if_neg (by omega), if_neg (by push_neg; exact ⟨hm, hf⟩)]
  by_cases hx : src.getD 3 0 &&& 4 ≠ 0 ∧ src.length < 12
  · rw [if_pos hx, if_pos hx]
  · rw [if_neg hx, if_neg hx]
    by_cases he : src.getD 3 0 &&& 4 ≠ 0
    · rw [if_pos he, if_pos he,
        show 12 + src.getD 10 0 + src.getD 11 0 * 256 =
          12 + (src.getD 10 0 + src.getD 11 0 * 256) from by omega]
      exact offEquiv_final src _ _ (offEquiv_add2 src _ _ _
        (offEquiv_ite src _ _ _ (offEquiv_ite src _ _ _ (Or.inl rfl))))
    · rw [if_neg he, if_neg he]
      exact offEquiv_final src _ _ (offEquiv_add2 src _ _ _
        (offEquiv_ite src _ _ _ (offEquiv_ite src _ _ _ (Or.inl rfl))))

/-- C3 witness: a header with every optional field present is skipped to
offset 20 by both the source computation and the spec's description. -/
theorem skipHeader_follows_spec_witness :
    skipHeader gzHdrSample = skipHeaderSpec gzHdrSample ∧
    skipHeaderSpec gzHdrSample = .ok 20 :=
  ⟨skipHeader_follows_spec gzHdrSample (by decide) (by decide) (by decide),
   by decide⟩

/-- C10: the gzip header skipper never reads the two gzip magic bytes at
offsets 0 and 1 — for an input of length at least 4 whose method byte is 8
and whose flag byte has no reserved bits, the result is the same for any
values of the first two bytes, and validation never fails with
`MalformedHeader`. -/
theorem skipHeader_ignores_magic (a b a2 b2 : Nat) (rest : List Nat)
    (hl : 2 ≤ rest.length) (hm : rest.getD 0 0 = 8)
    (hf : rest.getD 1 0 &&& 0xe0 = 0) :
    skipHeader (a :: b :: rest) = skipHeader (a2 :: b2 :: rest) ∧
    skipHeader (a :: b :: rest) ≠ .error .malformedHeader := by
  have hstr : ∀ i, 2 ≤ i →
      skipString (a :: b :: rest) i = skipString (a2 :: b2 :: rest) i :=
    fun i hi => by
      rw [skipString_cons2 a b rest i hi, skipString_cons2 a2 b2 rest i hi]
  constructor
  · simp only [skipHeader,
      show ∀ u v : Nat, (u :: v :: rest).length = rest.length + 2 from
        fun _ _ => rfl,
      show ∀ u v : Nat, (u :: v :: rest).getD 2 0 = rest.getD 0 0 from
        fun _ _ => rfl,
      show ∀ u v : Nat, (u :: v :: rest).getD 3 0 = rest.getD 1 0 from
        fun _ _ => rfl,
      show ∀ u v : Nat, (u :: v :: rest).getD 10 0 = rest.getD 8 0 from
        fun _ _ => rfl,
      show ∀ u v : Nat, (u :: v :: rest).getD 11 0 = rest.getD 9 0 from
        fun _ _ => rfl]
    set E := if rest.getD 1 0 &&& 4 ≠ 0 then
      12 + rest.getD 8 0 + rest.getD 9 0 * 256 else 10 with hE
    have hE2 : 2 ≤ E := by
      rw [hE]
      split <;> omega
    rw [hstr E hE2]
    set F := if rest.getD 1 0 &&& 8 ≠ 0 then
      skipString (a2 :: b2 :: rest) E else E with hF
    have hF2 : 2 ≤ F := by
      rw [hF]
      split
      · have := skipString_ge (a2 :: b2 :: rest) E
        omega
      · exact hE2
    rw [hstr F hF2]
  · simp only [skipHeader,
      show (a :: b :: rest).length = rest.length + 2 from rfl,
      show (a :: b :: rest).getD 2 0 = rest.getD 0 0 from rfl,
      show (a :: b :: rest).getD 3 0 = rest.getD 1 0 from rfl]
    rw [if_neg (show ¬rest.length + 2 < 4 by omega),
      if_neg (show ¬(rest.getD 0 0 ≠ 8 ∨ rest.getD 1 0 &&& 0xe0 ≠ 0) by
        push_neg
        exact ⟨hm, hf⟩)]
    split_ifs <;> simp

/-- C10 witness: changing the two magic bytes of the test stream's header
does not change the skipper's result, and validation passes. -/
theorem skipHeader_ignores_magic_witness :
    skipHeader (0 :: 0 :: validGzipData.drop 2) =
      skipHeader (255 :: 77 :: validGzipData.drop 2) ∧
    skipHeader (0 :: 0 :: validGzipData.drop 2) ≠ .error .malformedHeader :=
  skipHeader_ignores_magic 0 0 255 77 (validGzipData.drop 2) (by decide)
    (by decide) (by decide)

end Unzboot
